import Mathlib

/-!
Shallow embedding of the chess rules engine of this repository
(src/utils/chess-logic.ts) together with the game-state coordinator
(the ChessGame component: its useState record, handleSquareClick,
the status-recomputing useEffect and resetGame).

Conventions of the embedding:
* A square coordinate is a pair (x, y) : Int × Int, x the file and y the
  rank index, exactly as in the source where a position is [x, y] and the
  board is indexed board[y][x].
* JavaScript array reads arr[i] are modeled by jsIndex, which yields none
  (undefined) outside the array bounds.  The one place where an
  out-of-bounds read of board[y] is followed by a further index (and hence
  throws a TypeError in JavaScript) is modeled explicitly by
  handleSquareClickJS below; every other read in the engine happens at
  indices inside the 8 by 8 board.
* Writes newBoard[y][x] = v are modeled by boardSet, a functional update;
  all writes performed by the engine are at indices inside the board.
* The while loop of isPathClear is modeled with explicit fuel, none
  meaning the loop would not have terminated; the engine only calls it on
  aligned squares where fuel 8 suffices (proved below).
-/

inductive PieceType where
  | pawn
  | rook
  | knight
  | bishop
  | queen
  | king
deriving DecidableEq

inductive PieceColor where
  | white
  | black
deriving DecidableEq

structure ChessPiece where
  type : PieceType
  color : PieceColor
  position : Int × Int
  hasMoved : Bool
  id : String
deriving DecidableEq

abbrev Board := List (List (Option ChessPiece))

inductive GameStatus where
  | playing
  | check
  | checkmate
  | stalemate
deriving DecidableEq

structure GameState where
  board : Board
  currentPlayer : PieceColor
  selectedPiece : Option (Int × Int)
  validMoves : List (Int × Int)
  gameStatus : GameStatus
  capturedPieces : List ChessPiece
  moveHistory : List String
deriving DecidableEq

/-- JavaScript array read arr[i]: undefined (none) outside the bounds. -/
def jsIndex {α : Type} (l : List α) (i : Int) : Option α :=
  if 0 ≤ i then l[i.toNat]? else none

/-- board[y][x] where a missing row also reads as an empty cell; the engine
only evaluates it at in-range indices.  The row-missing case, which throws
in the source, is modeled explicitly where it matters (handleSquareClickJS),
and the statement about kingless boards carries a boardWellFormed
hypothesis so that it never relies on this collapse. -/
def getCell (board : Board) (x y : Int) : Option ChessPiece :=
  ((jsIndex board y).bind fun row => jsIndex row x).join

/-- newBoard[y][x] = v on a row-copied board, as a functional update. -/
def boardSet (board : Board) (x y : Int) (v : Option ChessPiece) : Board :=
  if 0 ≤ y ∧ 0 ≤ x then
    match board[y.toNat]? with
    | some row => board.set y.toNat (row.set x.toNat v)
    | none => board
  else board

/-- The scan values 0..7 of the for loops over board coordinates. -/
def coords8 : List Int := [0, 1, 2, 3, 4, 5, 6, 7]

/-- The local `direction` of the pawn case of isValidMove. -/
def pawnDirection (c : PieceColor) : Int :=
  if c = PieceColor.white then -1 else 1

/-- The local `startRow` of the pawn case of isValidMove. -/
def pawnStartRow (c : PieceColor) : Int :=
  if c = PieceColor.white then 6 else 1

/-- The while loop of isPathClear: state (x, y), stepping by (dx, dy) until
(toX, toY) is reached; some false as soon as an intermediate square is
occupied, none when the fuel runs out before the destination is reached. -/
def pathClearLoop (board : Board) (toX toY dx dy : Int) :
    Nat → Int → Int → Option Bool
  | 0, x, y => if x = toX ∧ y = toY then some true else none
  | fuel + 1, x, y =>
      if x = toX ∧ y = toY then some true
      else if (getCell board x y).isSome then some false
      else pathClearLoop board toX toY dx dy fuel (x + dx) (y + dy)

/-- isPathClear with its loop made explicit: the step is the sign of each
axis delta and the walk starts one step away from `fromSq`.  Fuel 8 covers
every aligned pair of on-board squares (path_walk lemmas below). -/
def isPathClearFuel (board : Board) (fromSq toSq : Int × Int) : Option Bool :=
  let dx := (toSq.1 - fromSq.1).sign
  let dy := (toSq.2 - fromSq.2).sign
  pathClearLoop board toSq.1 toSq.2 dx dy 8 (fromSq.1 + dx) (fromSq.2 + dy)

/-- isPathClear of the source (a Bool); the getD is inert at every call
site of the engine since the walk terminates there. -/
def isPathClear (board : Board) (fromSq toSq : Int × Int) : Bool :=
  (isPathClearFuel board fromSq toSq).getD false

/-- isValidMove of chess-logic.ts: the per-piece movement shapes. -/
def isValidMove (board : Board) (fromSq toSq : Int × Int)
    (piece : ChessPiece) : Bool :=
  let dx := toSq.1 - fromSq.1
  let dy := toSq.2 - fromSq.2
  let targetPiece := getCell board toSq.1 toSq.2
  if fromSq.1 = toSq.1 ∧ fromSq.2 = toSq.2 then false
  else if targetPiece.any fun t => decide (t.color = piece.color) then false
  else
    match piece.type with
    | PieceType.pawn =>
        let direction := pawnDirection piece.color
        let startRow := pawnStartRow piece.color
        if dx = 0 then
          if dy = direction ∧ targetPiece = none then true
          else if fromSq.2 = startRow ∧ dy = 2 * direction ∧ targetPiece = none then true
          else false
        else if dx.natAbs = 1 ∧ dy = direction ∧ targetPiece.isSome then true
        else false
    | PieceType.rook =>
        if dx = 0 ∨ dy = 0 then isPathClear board fromSq toSq else false
    | PieceType.knight =>
        decide ((dx.natAbs = 2 ∧ dy.natAbs = 1) ∨ (dx.natAbs = 1 ∧ dy.natAbs = 2))
    | PieceType.bishop =>
        if dx.natAbs = dy.natAbs then isPathClear board fromSq toSq else false
    | PieceType.queen =>
        if dx = 0 ∨ dy = 0 ∨ dx.natAbs = dy.natAbs then
          isPathClear board fromSq toSq
        else false
    | PieceType.king =>
        decide (dx.natAbs ≤ 1 ∧ dy.natAbs ≤ 1)

/-- findKing of chess-logic.ts: first king of the color in scan order
(y outer, x inner). -/
def findKing (board : Board) (color : PieceColor) : Option (Int × Int) :=
  coords8.findSome? fun y =>
    coords8.findSome? fun x =>
      match getCell board x y with
      | some piece =>
          if piece.type = PieceType.king ∧ piece.color = color then
            some (x, y)
          else none
      | none => none

/-- isInCheck of chess-logic.ts. -/
def isInCheck (board : Board) (color : PieceColor) : Bool :=
  match findKing board color with
  | none => false
  | some kingPos =>
      let opponentColor :=
        if color = PieceColor.white then PieceColor.black else PieceColor.white
      coords8.any fun y =>
        coords8.any fun x =>
          match getCell board x y with
          | some piece =>
              if piece.color = opponentColor then
                isValidMove board (x, y) kingPos piece
              else false
          | none => false

/-- wouldBeInCheck of chess-logic.ts: row-copied board, destination set
first, then the origin cleared. -/
def wouldBeInCheck (board : Board) (fromSq toSq : Int × Int)
    (color : PieceColor) : Bool :=
  let piece := getCell board fromSq.1 fromSq.2
  let newBoard := boardSet (boardSet board toSq.1 toSq.2 piece) fromSq.1 fromSq.2 none
  isInCheck newBoard color

/-- getValidMoves of chess-logic.ts: scan with x as the outer and y as the
inner loop, keeping shape-legal destinations that pass the self-check
filter. -/
def getValidMoves (board : Board) (position : Int × Int) : List (Int × Int) :=
  match getCell board position.1 position.2 with
  | none => []
  | some piece =>
      coords8.flatMap fun x =>
        (coords8.filter fun y =>
          isValidMove board position (x, y) piece &&
            !wouldBeInCheck board position (x, y) piece.color).map
          fun y => (x, y)

/-- isCheckmate of chess-logic.ts. -/
def isCheckmate (board : Board) (color : PieceColor) : Bool :=
  if isInCheck board color then
    !(coords8.any fun y =>
      coords8.any fun x =>
        match getCell board x y with
        | some piece =>
            decide (piece.color = color) &&
              decide (0 < (getValidMoves board (x, y)).length)
        | none => false)
  else false

/-- The status recomputation of the ChessGame useEffect: checkmate wins
over check, everything else is playing. -/
def computeStatus (board : Board) (color : PieceColor) : GameStatus :=
  if isCheckmate board color then GameStatus.checkmate
  else if isInCheck board color then GameStatus.check
  else GameStatus.playing

/-- The `files` array of formatMove. -/
def files : List String := ["a", "b", "c", "d", "e", "f", "g", "h"]

/-- The string value of the piece.type union member. -/
def pieceTypeName : PieceType → String
  | PieceType.pawn => "pawn"
  | PieceType.rook => "rook"
  | PieceType.knight => "knight"
  | PieceType.bishop => "bishop"
  | PieceType.queen => "queen"
  | PieceType.king => "king"

/-- The template literal files[sq[0]] ++ (8 - sq[1]) of formatMove. -/
def squareName (sq : Int × Int) : String :=
  (jsIndex files sq.1).getD "undefined" ++ toString (8 - sq.2)

/-- formatMove of chess-logic.ts. -/
def formatMove (fromSq toSq : Int × Int) (piece : ChessPiece)
    (captured : Option ChessPiece) : String :=
  let fromSquare := squareName fromSq
  let toSquare := squareName toSq
  let pieceSymbol :=
    if piece.type = PieceType.pawn then ""
    else ((pieceTypeName piece.type).front.toUpper).toString
  let captureSymbol := if captured.isSome then "x" else ""
  pieceSymbol ++ captureSymbol ++ toSquare

/-- initialBoard of chess-logic.ts. -/
def initialBoard : Board :=
  [ [ some ⟨PieceType.rook, PieceColor.black, (0, 0), false, "br1"⟩,
      some ⟨PieceType.knight, PieceColor.black, (1, 0), false, "bn1"⟩,
      some ⟨PieceType.bishop, PieceColor.black, (2, 0), false, "bb1"⟩,
      some ⟨PieceType.queen, PieceColor.black, (3, 0), false, "bq"⟩,
      some ⟨PieceType.king, PieceColor.black, (4, 0), false, "bk"⟩,
      some ⟨PieceType.bishop, PieceColor.black, (5, 0), false, "bb2"⟩,
      some ⟨PieceType.knight, PieceColor.black, (6, 0), false, "bn2"⟩,
      some ⟨PieceType.rook, PieceColor.black, (7, 0), false, "br2"⟩ ],
    [ some ⟨PieceType.pawn, PieceColor.black, (0, 1), false, "bp1"⟩,
      some ⟨PieceType.pawn, PieceColor.black, (1, 1), false, "bp2"⟩,
      some ⟨PieceType.pawn, PieceColor.black, (2, 1), false, "bp3"⟩,
      some ⟨PieceType.pawn, PieceColor.black, (3, 1), false, "bp4"⟩,
      some ⟨PieceType.pawn, PieceColor.black, (4, 1), false, "bp5"⟩,
      some ⟨PieceType.pawn, PieceColor.black, (5, 1), false, "bp6"⟩,
      some ⟨PieceType.pawn, PieceColor.black, (6, 1), false, "bp7"⟩,
      some ⟨PieceType.pawn, PieceColor.black, (7, 1), false, "bp8"⟩ ],
    [none, none, none, none, none, none, none, none],
    [none, none, none, none, none, none, none, none],
    [none, none, none, none, none, none, none, none],
    [none, none, none, none, none, none, none, none],
    [ some ⟨PieceType.pawn, PieceColor.white, (0, 6), false, "wp1"⟩,
      some ⟨PieceType.pawn, PieceColor.white, (1, 6), false, "wp2"⟩,
      some ⟨PieceType.pawn, PieceColor.white, (2, 6), false, "wp3"⟩,
      some ⟨PieceType.pawn, PieceColor.white, (3, 6), false, "wp4"⟩,
      some ⟨PieceType.pawn, PieceColor.white, (4, 6), false, "wp5"⟩,
      some ⟨PieceType.pawn, PieceColor.white, (5, 6), false, "wp6"⟩,
      some ⟨PieceType.pawn, PieceColor.white, (6, 6), false, "wp7"⟩,
      some ⟨PieceType.pawn, PieceColor.white, (7, 6), false, "wp8"⟩ ],
    [ some ⟨PieceType.rook, PieceColor.white, (0, 7), false, "wr1"⟩,
      some ⟨PieceType.knight, PieceColor.white, (1, 7), false, "wn1"⟩,
      some ⟨PieceType.bishop, PieceColor.white, (2, 7), false, "wb1"⟩,
      some ⟨PieceType.queen, PieceColor.white, (3, 7), false, "wq"⟩,
      some ⟨PieceType.king, PieceColor.white, (4, 7), false, "wk"⟩,
      some ⟨PieceType.bishop, PieceColor.white, (5, 7), false, "wb2"⟩,
      some ⟨PieceType.knight, PieceColor.white, (6, 7), false, "wn2"⟩,
      some ⟨PieceType.rook, PieceColor.white, (7, 7), false, "wr2"⟩ ] ]

/-- The useState initializer of ChessGame. -/
def initialGameState : GameState :=
  { board := initialBoard
    currentPlayer := PieceColor.white
    selectedPiece := none
    validMoves := []
    gameStatus := GameStatus.playing
    capturedPieces := []
    moveHistory := [] }

/-- The setGameState updater body of handleSquareClick (everything after
the checkmate guard), with the piece already read from board[y][x]. -/
def squareClickUpdate (prevState : GameState) (x y : Int) : GameState :=
  let piece := getCell prevState.board x y
  match prevState.selectedPiece with
  | none =>
      match piece with
      | some p =>
          if p.color = prevState.currentPlayer then
            { prevState with
                selectedPiece := some (x, y)
                validMoves := getValidMoves prevState.board (x, y) }
          else prevState
      | none => prevState
  | some sel =>
      if sel.1 = x ∧ sel.2 = y then
        { prevState with selectedPiece := none, validMoves := [] }
      else
        let isValid := prevState.validMoves.any fun m =>
          decide (m.1 = x) && decide (m.2 = y)
        let movingPiece := getCell prevState.board sel.1 sel.2
        match isValid, movingPiece with
        | true, some mp =>
            let capturedPiece := getCell prevState.board x y
            let newBoard :=
              boardSet (boardSet prevState.board x y
                (some { mp with position := (x, y), hasMoved := true }))
                sel.1 sel.2 none
            let moveText := formatMove sel (x, y) mp capturedPiece
            { prevState with
                board := newBoard
                currentPlayer :=
                  if prevState.currentPlayer = PieceColor.white then
                    PieceColor.black
                  else PieceColor.white
                selectedPiece := none
                validMoves := []
                capturedPieces :=
                  match capturedPiece with
                  | some c => prevState.capturedPieces ++ [c]
                  | none => prevState.capturedPieces
                moveHistory := prevState.moveHistory ++ [moveText] }
        | _, _ =>
            match piece with
            | some p =>
                if p.color = prevState.currentPlayer then
                  { prevState with
                      selectedPiece := some (x, y)
                      validMoves := getValidMoves prevState.board (x, y) }
                else { prevState with selectedPiece := none, validMoves := [] }
            | none => { prevState with selectedPiece := none, validMoves := [] }

/-- handleSquareClick of ChessGame: inert once the status is checkmate. -/
def handleSquareClick (st : GameState) (x y : Int) : GameState :=
  if st.gameStatus = GameStatus.checkmate then st
  else squareClickUpdate st x y

/-- handleSquareClick with the JavaScript indexing of board[y][x] made
explicit: reading a cell of a missing row y throws a TypeError. -/
def handleSquareClickJS (st : GameState) (x y : Int) :
    Except String GameState :=
  if st.gameStatus = GameStatus.checkmate then Except.ok st
  else
    match jsIndex st.board y with
    | none => Except.error "TypeError"
    | some _ => Except.ok (squareClickUpdate st x y)

/-- resetGame of ChessGame: the initial record, rebuilt wholesale. -/
def resetGame : GameState :=
  { board := initialBoard
    currentPlayer := PieceColor.white
    selectedPiece := none
    validMoves := []
    gameStatus := GameStatus.playing
    capturedPieces := []
    moveHistory := [] }

/-- A board holding a single white king on square (0, 0). -/
def kingBoard : Board :=
  [ [some ⟨PieceType.king, PieceColor.white, (0, 0), false, "wk"⟩,
     none, none, none, none, none, none, none],
    [none, none, none, none, none, none, none, none],
    [none, none, none, none, none, none, none, none],
    [none, none, none, none, none, none, none, none],
    [none, none, none, none, none, none, none, none],
    [none, none, none, none, none, none, none, none],
    [none, none, none, none, none, none, none, none],
    [none, none, none, none, none, none, none, none] ]

/-- A board where the white knight on (4, 5) is pinned against the white
king on (4, 7) by the black rook on (4, 0): every knight jump leaves the
e file and opens the line of the black rook to the king. -/
def pinnedBoard : Board :=
  [ [none, none, none, none,
     some ⟨PieceType.rook, PieceColor.black, (4, 0), false, "br1"⟩,
     none, none, none],
    [none, none, none, none, none, none, none, none],
    [none, none, none, none, none, none, none, none],
    [none, none, none, none, none, none, none, none],
    [none, none, none, none, none, none, none, none],
    [none, none, none, none,
     some ⟨PieceType.knight, PieceColor.white, (4, 5), false, "wn1"⟩,
     none, none, none],
    [none, none, none, none, none, none, none, none],
    [none, none, none, none,
     some ⟨PieceType.king, PieceColor.white, (4, 7), false, "wk"⟩,
     none, none, none] ]

/-- A board where the white pawn on (0, 6) has its single intervening
square (0, 5) occupied while the double-step destination (0, 4) is empty. -/
def blockedPawnBoard : Board :=
  [ [none, none, none, none, none, none, none, none],
    [none, none, none, none, none, none, none, none],
    [none, none, none, none, none, none, none, none],
    [none, none, none, none, none, none, none, none],
    [none, none, none, none, none, none, none, none],
    [some ⟨PieceType.knight, PieceColor.black, (0, 5), false, "bn1"⟩,
     none, none, none, none, none, none, none],
    [some ⟨PieceType.pawn, PieceColor.white, (0, 6), false, "wp1"⟩,
     none, none, none, none, none, none, none],
    [none, none, none, none, none, none, none, none] ]

/-- The single white king piece of kingBoard. -/
def wkPiece : ChessPiece := ⟨PieceType.king, PieceColor.white, (0, 0), false, "wk"⟩

/-- A session state whose status has reached checkmate. -/
def stuckState : GameState :=
  { initialGameState with gameStatus := GameStatus.checkmate }

/-- A coordinate pair inside the 8 by 8 board. -/
def inRange8 (s : Int × Int) : Prop := 0 ≤ s.1 ∧ s.1 ≤ 7 ∧ 0 ≤ s.2 ∧ s.2 ≤ 7

instance : DecidablePred inRange8 := fun s => by unfold inRange8; infer_instance

/-- Rank-major, file-minor order on squares (the ordering the spec
asserts for getValidMoves results). -/
def rankMajorLt (a b : Int × Int) : Prop :=
  a.2 < b.2 ∨ (a.2 = b.2 ∧ a.1 < b.1)

instance : DecidableRel rankMajorLt := fun a b => by unfold rankMajorLt; infer_instance

/-- File-major, rank-minor order on squares (the order of the x-outer,
y-inner scan of getValidMoves). -/
def fileMajorLt (a b : Int × Int) : Prop :=
  a.1 < b.1 ∨ (a.1 = b.1 ∧ a.2 < b.2)

instance : DecidableRel fileMajorLt := fun a b => by unfold fileMajorLt; infer_instance

/-- All 64 squares in the scan order of getValidMoves. -/
def allSquaresScan : List (Int × Int) :=
  coords8.flatMap fun x => coords8.map fun y => (x, y)

/-- An 8 by 8 board value. -/
def boardWellFormed (b : Board) : Prop :=
  b.length = 8 ∧ ∀ r ∈ b, r.length = 8

/-- A well-formed 8 by 8 board holding no piece at all. -/
def emptyBoard8 : Board :=
  [ [none, none, none, none, none, none, none, none],
    [none, none, none, none, none, none, none, none],
    [none, none, none, none, none, none, none, none],
    [none, none, none, none, none, none, none, none],
    [none, none, none, none, none, none, none, none],
    [none, none, none, none, none, none, none, none],
    [none, none, none, none, none, none, none, none],
    [none, none, none, none, none, none, none, none] ]

/-- C3: once the game status is checkmate, every square-activation event,
at every coordinate, returns the state unchanged, and the explicit reset
recreates the initial state. -/
theorem checkmate_freezes_state (st : GameState) (x y : Int)
    (h : st.gameStatus = GameStatus.checkmate) :
    handleSquareClick st x y = st ∧ resetGame = initialGameState := by
  refine ⟨?_, rfl⟩
  unfold handleSquareClick
  simp [h]

theorem checkmate_freezes_state_witness :
    stuckState.gameStatus = GameStatus.checkmate ∧
      (handleSquareClick stuckState 3 3 = stuckState ∧
        resetGame = initialGameState) :=
  ⟨rfl, checkmate_freezes_state stuckState 3 3 rfl⟩

/-- C4: a pawn standing on its starting rank may always move two squares
forward when the destination is empty; isValidMove never inspects the
intervening square for the double step. -/
theorem pawn_double_step_no_path_check (board : Board) (piece : ChessPiece)
    (x : Int) (ht : piece.type = PieceType.pawn)
    (hdest : getCell board x
      (pawnStartRow piece.color + 2 * pawnDirection piece.color) = none) :
    isValidMove board (x, pawnStartRow piece.color)
      (x, pawnStartRow piece.color + 2 * pawnDirection piece.color) piece = true := by
  unfold isValidMove
  cases hc : piece.color
  · rw [hc] at hdest
    rw [show pawnStartRow PieceColor.white + 2 * pawnDirection PieceColor.white =
      (4 : Int) from by decide] at hdest
    simp [ht, hc, pawnStartRow, pawnDirection, hdest]
  · rw [hc] at hdest
    rw [show pawnStartRow PieceColor.black + 2 * pawnDirection PieceColor.black =
      (3 : Int) from by decide] at hdest
    simp [ht, hc, pawnStartRow, pawnDirection, hdest]

theorem pawn_double_step_no_path_check_witness :
    getCell blockedPawnBoard 0 5 ≠ none ∧
    getCell blockedPawnBoard 0
      (pawnStartRow PieceColor.white + 2 * pawnDirection PieceColor.white) = none ∧
    isValidMove blockedPawnBoard (0, pawnStartRow PieceColor.white)
      (0, pawnStartRow PieceColor.white + 2 * pawnDirection PieceColor.white)
      ⟨PieceType.pawn, PieceColor.white, (0, 6), false, "wp1"⟩ = true :=
  ⟨by decide, by decide,
    pawn_double_step_no_path_check blockedPawnBoard
      ⟨PieceType.pawn, PieceColor.white, (0, 6), false, "wp1"⟩ 0 rfl (by decide)⟩

/-- C6: formatMove emits piece letter (empty for a pawn, upper-cased first
letter of the type name otherwise, so knight and king both emit K), then x
exactly when a capture is supplied, then the destination name; the origin
argument never affects the output.  Concretely, a rook (0,7) to (0,3) is
Ra5, capturing is Rxa5, and a pawn to (4,4) is e4. -/
theorem formatMove_spec :
    (∀ (fromSq toSq : Int × Int) (piece : ChessPiece) (captured : Option ChessPiece),
        formatMove fromSq toSq piece captured =
          (if piece.type = PieceType.pawn then ""
            else ((pieceTypeName piece.type).front.toUpper).toString) ++
            (if captured.isSome then "x" else "") ++ squareName toSq) ∧
    (∀ (fromSq fromSq2 toSq : Int × Int) (piece : ChessPiece)
        (captured : Option ChessPiece),
        formatMove fromSq toSq piece captured = formatMove fromSq2 toSq piece captured) ∧
    (∀ (fromSq toSq pos : Int × Int) (c : PieceColor) (hm : Bool) (i : String)
        (captured : Option ChessPiece),
        formatMove fromSq toSq ⟨PieceType.knight, c, pos, hm, i⟩ captured =
          formatMove fromSq toSq ⟨PieceType.king, c, pos, hm, i⟩ captured) ∧
    formatMove (0, 7) (0, 3)
      ⟨PieceType.rook, PieceColor.white, (0, 7), false, "wr1"⟩ none = "Ra5" ∧
    formatMove (0, 7) (0, 3)
      ⟨PieceType.rook, PieceColor.white, (0, 7), false, "wr1"⟩
      (some ⟨PieceType.pawn, PieceColor.black, (0, 3), false, "bp1"⟩) = "Rxa5" ∧
    formatMove (4, 6) (4, 4)
      ⟨PieceType.pawn, PieceColor.white, (4, 6), false, "wp5"⟩ none = "e4" :=
  ⟨fun _ _ _ _ => rfl, fun _ _ _ _ _ => rfl, fun _ _ _ _ _ _ _ => rfl,
    by decide, by decide, by decide⟩

/-- A successful jsIndex read returns a member of the list. -/
theorem jsIndex_mem {α : Type} {l : List α} {i : Int} {a : α}
    (h : jsIndex l i = some a) : a ∈ l := by
  unfold jsIndex at h
  by_cases h0 : 0 ≤ i
  · rw [if_pos h0] at h
    obtain ⟨hlt, rfl⟩ := List.getElem?_eq_some.mp h
    exact List.getElem_mem hlt
  · rw [if_neg h0] at h
    cases h

/-- Every cell of the all-empty 8 by 8 board reads as empty. -/
theorem emptyBoard8_getCell (x y : Int) : getCell emptyBoard8 x y = none := by
  unfold getCell
  cases hrow : jsIndex emptyBoard8 y with
  | none => rfl
  | some row =>
      have hmem : row ∈ emptyBoard8 := jsIndex_mem hrow
      have hall : row = [none, none, none, none, none, none, none, none] := by
        simp only [emptyBoard8, List.mem_cons, List.not_mem_nil, or_false] at hmem
        rcases hmem with h | h | h | h | h | h | h | h <;> exact h
      subst hall
      show (jsIndex [none, none, none, none, none, none, none, none] x).join = none
      cases hcell : jsIndex [none, none, none, none, none, none, none, none] x with
      | none => rfl
      | some c =>
          have hcm := jsIndex_mem hcell
          simp only [List.mem_cons, List.not_mem_nil, or_false] at hcm
          have hc : c = none := by rcases hcm with h | h | h | h | h | h | h | h <;> exact h
          subst hc
          rfl

/-- C7: on a well-formed 8 by 8 board holding no king of the color,
isInCheck returns a benign false instead of signalling an error: the
king-not-found guard of the source returns false.  The well-formedness
hypothesis confines the statement to board values on which the scan of
findKing itself reads every cell in bounds (on a ragged board value the
unguarded board[y][x] read of the scan, not the guard, would fault in the
source). -/
theorem isInCheck_no_king_false (board : Board) (color : PieceColor)
    (_hwf : boardWellFormed board)
    (h : ∀ (x y : Int) (p : ChessPiece), getCell board x y = some p →
      p.type = PieceType.king → p.color ≠ color) :
    isInCheck board color = false := by
  have hk : findKing board color = none := by
    unfold findKing
    rw [List.findSome?_eq_none_iff]
    intro y _
    rw [List.findSome?_eq_none_iff]
    intro x _
    cases hc : getCell board x y with
    | none => rfl
    | some p =>
        show (if p.type = PieceType.king ∧ p.color = color then some (x, y)
          else none) = none
        rw [if_neg]
        rintro ⟨h1, h2⟩
        exact h x y p hc h1 h2
  unfold isInCheck
  rw [hk]

theorem isInCheck_no_king_false_witness :
    boardWellFormed emptyBoard8 ∧
    (∀ (x y : Int) (p : ChessPiece), getCell emptyBoard8 x y = some p →
      p.type = PieceType.king → p.color ≠ PieceColor.white) ∧
    isInCheck emptyBoard8 PieceColor.white = false := by
  have hwf : boardWellFormed emptyBoard8 := ⟨rfl, by decide⟩
  have h : ∀ (x y : Int) (p : ChessPiece), getCell emptyBoard8 x y = some p →
      p.type = PieceType.king → p.color ≠ PieceColor.white := by
    intro x y p hc
    rw [emptyBoard8_getCell] at hc
    cases hc
  exact ⟨hwf, h, isInCheck_no_king_false emptyBoard8 PieceColor.white hwf h⟩

/-- C8: with nothing selected, activating a square that is empty or holds
an opponent piece returns the state unchanged. -/
theorem idle_click_nonown_noop (st : GameState) (x y : Int)
    (hsel : st.selectedPiece = none)
    (hcell : getCell st.board x y = none ∨
      ∃ p, getCell st.board x y = some p ∧ p.color ≠ st.currentPlayer) :
    handleSquareClick st x y = st := by
  have hupd : squareClickUpdate st x y = st := by
    rcases hcell with h | ⟨p, hp, hne⟩
    · simp only [squareClickUpdate, hsel, h]
    · simp only [squareClickUpdate, hsel, hp]
      rw [if_neg hne]
  unfold handleSquareClick
  by_cases hg : st.gameStatus = GameStatus.checkmate
  · simp [hg]
  · simp [hg, hupd]

theorem idle_click_nonown_noop_witness :
    initialGameState.selectedPiece = none ∧
    getCell initialGameState.board 0 3 = none ∧
    handleSquareClick initialGameState 0 3 = initialGameState :=
  ⟨rfl, by decide,
    idle_click_nonown_noop initialGameState 0 3 rfl (Or.inl (by decide))⟩

/-- C9 counterexample: the square-activation entry point does not reject
the out-of-range file coordinate 8: with the rank in range, the unguarded
read board[0][8] yields undefined, the click is treated as a click on an
empty square and succeeds as a silent no-op instead of an error. -/
theorem square_click_no_range_validation :
    ¬ inRange8 (8, 0) ∧
    handleSquareClickJS initialGameState 8 0 = Except.ok initialGameState :=
  ⟨by decide, rfl⟩

/-- C9 amended: no coordinate validation happens at the entry point; an
out-of-range rank index surfaces only as the TypeError of the unguarded
board[y][x] read, while an out-of-range file index with an in-range rank
reads as an empty square and (with nothing selected) is a silent no-op. -/
theorem square_click_boundary_behavior (st : GameState) (x y : Int)
    (hwf : boardWellFormed st.board)
    (hng : st.gameStatus ≠ GameStatus.checkmate) :
    ((y < 0 ∨ 8 ≤ y) → handleSquareClickJS st x y = Except.error "TypeError") ∧
    (st.selectedPiece = none → 0 ≤ y → y < 8 → (x < 0 ∨ 8 ≤ x) →
      handleSquareClickJS st x y = Except.ok st) := by
  constructor
  · intro hy
    unfold handleSquareClickJS
    rw [if_neg hng]
    have hnone : jsIndex st.board y = none := by
      unfold jsIndex
      rcases hy with hy | hy
      · rw [if_neg (by omega)]
      · rw [if_pos (by omega)]
        apply List.getElem?_eq_none
        rw [hwf.1]
        omega
    rw [hnone]
  · intro hsel hy0 hy8 hx
    unfold handleSquareClickJS
    rw [if_neg hng]
    have hlt : y.toNat < st.board.length := by rw [hwf.1]; omega
    have hr : jsIndex st.board y = some (st.board[y.toNat]) := by
      unfold jsIndex
      rw [if_pos hy0]
      exact List.getElem?_eq_getElem hlt
    rw [hr]
    have hcell : getCell st.board x y = none := by
      unfold getCell
      rw [hr]
      have hrx : jsIndex (st.board[y.toNat]) x = none := by
        unfold jsIndex
        rcases hx with hx | hx
        · rw [if_neg (by omega)]
        · rw [if_pos (by omega)]
          apply List.getElem?_eq_none
          rw [hwf.2 _ (List.getElem_mem hlt)]
          omega
      simp [hrx]
    have hupd : squareClickUpdate st x y = st := by
      simp only [squareClickUpdate, hsel, hcell]
    rw [hupd]

theorem square_click_boundary_behavior_witness :
    handleSquareClickJS initialGameState 0 9 = Except.error "TypeError" ∧
    handleSquareClickJS initialGameState 9 0 = Except.ok initialGameState := by
  have hwf : boardWellFormed initialGameState.board := ⟨rfl, by decide⟩
  exact
    ⟨(square_click_boundary_behavior initialGameState 0 9 hwf (by decide)).1
        (by omega),
      (square_click_boundary_behavior initialGameState 9 0 hwf (by decide)).2
        rfl (by omega) (by omega) (by omega)⟩

/-- The walk of pathClearLoop reaches the destination: starting n unit
steps away, any fuel of at least n suffices to produce an answer. -/
theorem pathClearLoop_reaches (board : Board) (toX toY dxs dys : Int)
    (hd : dxs ≠ 0 ∨ dys ≠ 0) :
    ∀ (n fuel : Nat), n ≤ fuel →
      (pathClearLoop board toX toY dxs dys fuel
        (toX - (n : Int) * dxs) (toY - (n : Int) * dys)).isSome = true := by
  intro n
  induction n with
  | zero =>
      intro fuel _
      cases fuel <;> simp [pathClearLoop]
  | succ m ih =>
      intro fuel hf
      obtain ⟨f, rfl⟩ : ∃ f, fuel = f + 1 := ⟨fuel - 1, by omega⟩
      have hm1 : ((m + 1 : Nat) : Int) ≠ 0 := by
        push_cast
        omega
      have hne : ¬(toX - ((m + 1 : Nat) : Int) * dxs = toX ∧
          toY - ((m + 1 : Nat) : Int) * dys = toY) := by
        rintro ⟨h1, h2⟩
        have e1 : ((m + 1 : Nat) : Int) * dxs = 0 := by omega
        have e2 : ((m + 1 : Nat) : Int) * dys = 0 := by omega
        rcases hd with h | h
        · rcases mul_eq_zero.mp e1 with h' | h'
          · exact hm1 h'
          · exact h h'
        · rcases mul_eq_zero.mp e2 with h' | h'
          · exact hm1 h'
          · exact h h'
      have hax : toX - ((m + 1 : Nat) : Int) * dxs + dxs = toX - (m : Int) * dxs := by
        push_cast
        ring
      have hay : toY - ((m + 1 : Nat) : Int) * dys + dys = toY - (m : Int) * dys := by
        push_cast
        ring
      simp only [pathClearLoop]
      rw [if_neg hne]
      by_cases hocc : (getCell board (toX - ((m + 1 : Nat) : Int) * dxs)
          (toY - ((m + 1 : Nat) : Int) * dys)).isSome = true
      · rw [if_pos hocc]
        rfl
      · rw [if_neg hocc, hax, hay]
        exact ih f (by omega)

/-- C10: every isPathClear invocation made by isValidMove terminates: on
rank-aligned, file-aligned or exactly diagonal distinct on-board squares
(the union of the rook, bishop and queen guards, the only contexts where
isValidMove calls the helper), the unit-step walk reaches the destination
within at most seven steps (fuel 7 below), and in particular the fuel-8
walk of isPathClearFuel yields an answer. -/
theorem isPathClear_terminates_on_aligned (board : Board)
    (fromSq toSq : Int × Int)
    (h1 : inRange8 fromSq) (h2 : inRange8 toSq) (hne : fromSq ≠ toSq)
    (hal : toSq.1 - fromSq.1 = 0 ∨ toSq.2 - fromSq.2 = 0 ∨
      (toSq.1 - fromSq.1).natAbs = (toSq.2 - fromSq.2).natAbs) :
    (pathClearLoop board toSq.1 toSq.2
      (toSq.1 - fromSq.1).sign (toSq.2 - fromSq.2).sign 7
      (fromSq.1 + (toSq.1 - fromSq.1).sign)
      (fromSq.2 + (toSq.2 - fromSq.2).sign)).isSome = true ∧
    (isPathClearFuel board fromSq toSq).isSome = true := by
  obtain ⟨fx, fy⟩ := fromSq
  obtain ⟨tx, ty⟩ := toSq
  simp only at h1 h2 hal ⊢
  obtain ⟨hfx0, hfx7, hfy0, hfy7⟩ := h1
  obtain ⟨htx0, htx7, hty0, hty7⟩ := h2
  have hne' : tx - fx ≠ 0 ∨ ty - fy ≠ 0 := by
    by_contra hcon
    push_neg at hcon
    exact hne (by
      have hx : fx = tx := by omega
      have hy : fy = ty := by omega
      rw [hx, hy])
  set n := max (tx - fx).natAbs (ty - fy).natAbs with hn
  have hkey : tx - fx = (n : Int) * (tx - fx).sign ∧
      ty - fy = (n : Int) * (ty - fy).sign := by
    rcases hal with h | h | h
    · have hnv : n = (ty - fy).natAbs := by
        rw [hn, h]
        simp
      constructor
      · rw [h]
        simp
      · rw [hnv, mul_comm]
        exact (Int.sign_mul_natAbs (ty - fy)).symm
    · have hnv : n = (tx - fx).natAbs := by
        rw [hn, h]
        simp
      constructor
      · rw [hnv, mul_comm]
        exact (Int.sign_mul_natAbs (tx - fx)).symm
      · rw [h]
        simp
    · constructor
      · have hnv : n = (tx - fx).natAbs := by rw [hn, h, max_self]
        rw [hnv, mul_comm]
        exact (Int.sign_mul_natAbs (tx - fx)).symm
      · have hnv : n = (ty - fy).natAbs := by rw [hn, h, max_self]
        rw [hnv, mul_comm]
        exact (Int.sign_mul_natAbs (ty - fy)).symm
  have hd : (tx - fx).sign ≠ 0 ∨ (ty - fy).sign ≠ 0 := by
    rcases hne' with h | h
    · exact Or.inl fun hs => h (Int.sign_eq_zero_iff_zero.mp hs)
    · exact Or.inr fun hs => h (Int.sign_eq_zero_iff_zero.mp hs)
  have hn1 : 1 ≤ n := by
    rcases hne' with h | h
    · exact le_trans (by omega) (le_max_left _ _)
    · exact le_trans (by omega) (le_max_right _ _)
  have hn7 : n ≤ 7 := by
    apply max_le <;> omega
  obtain ⟨m, hm⟩ : ∃ m, n = m + 1 := ⟨n - 1, by omega⟩
  have hsx : fx + (tx - fx).sign = tx - (m : Int) * (tx - fx).sign := by
    have h := hkey.1
    rw [hm] at h
    push_cast at h ⊢
    linear_combination -h
  have hsy : fy + (ty - fy).sign = ty - (m : Int) * (ty - fy).sign := by
    have h := hkey.2
    rw [hm] at h
    push_cast at h ⊢
    linear_combination -h
  constructor
  · rw [hsx, hsy]
    exact pathClearLoop_reaches board tx ty _ _ hd m 7 (by omega)
  · simp only [isPathClearFuel]
    rw [hsx, hsy]
    exact pathClearLoop_reaches board tx ty _ _ hd m 8 (by omega)

theorem isPathClear_terminates_on_aligned_witness :
    inRange8 ((0, 0) : Int × Int) ∧ inRange8 ((7, 7) : Int × Int) ∧
    ((0, 0) : Int × Int) ≠ (7, 7) ∧
    (isPathClearFuel ([] : Board) (0, 0) (7, 7)).isSome = true :=
  ⟨by decide, by decide, by decide,
    (isPathClear_terminates_on_aligned [] (0, 0) (7, 7) (by decide) (by decide)
      (by decide) (Or.inr (Or.inr rfl))).2⟩

/-- C1: every destination kept by getValidMoves passes the self-check
filter: on the board obtained by copying, placing the moving piece on the
destination and clearing the origin, isInCheck of the moving color is
false; in particular the pinned knight of pinnedBoard, all of whose jumps
would open the line of the black rook to its own king, has no legal move. -/
theorem getValidMoves_self_check_filter :
    (∀ (board : Board) (pos : Int × Int) (piece : ChessPiece),
        getCell board pos.1 pos.2 = some piece →
        ∀ mv ∈ getValidMoves board pos,
          isInCheck
            (boardSet (boardSet board mv.1 mv.2 (some piece)) pos.1 pos.2 none)
            piece.color = false) ∧
    getValidMoves pinnedBoard (4, 5) = [] := by
  constructor
  · intro board pos piece hp mv hm
    unfold getValidMoves at hm
    rw [hp] at hm
    simp only [List.mem_flatMap, List.mem_map, List.mem_filter,
      Bool.and_eq_true, Bool.not_eq_true'] at hm
    obtain ⟨x, hx, y, ⟨hy, hv, hw⟩, hxy⟩ := hm
    subst hxy
    simp only [wouldBeInCheck, hp] at hw
    exact hw
  · decide

theorem getValidMoves_self_check_filter_witness :
    getCell kingBoard 0 0 = some wkPiece ∧
    (0, 1) ∈ getValidMoves kingBoard (0, 0) ∧
    isInCheck (boardSet (boardSet kingBoard 0 1 (some wkPiece)) 0 0 none)
      wkPiece.color = false :=
  ⟨by decide, by decide,
    getValidMoves_self_check_filter.1 kingBoard (0, 0) wkPiece (by decide)
      (0, 1) (by decide)⟩

/-- The body of the isCheckmate scan, read as an existence statement. -/
theorem checkmate_scan_eq_false_iff (board : Board) (color : PieceColor) :
    (coords8.any fun y =>
      coords8.any fun x =>
        match getCell board x y with
        | some piece =>
            decide (piece.color = color) &&
              decide (0 < (getValidMoves board (x, y)).length)
        | none => false) = false ↔
    ∀ x ∈ coords8, ∀ y ∈ coords8, ∀ p : ChessPiece,
      getCell board x y = some p → p.color = color →
      getValidMoves board (x, y) = [] := by
  rw [← Bool.not_eq_true, List.any_eq_true]
  constructor
  · intro h x hx y hy p hp hc
    by_contra hmoves
    apply h
    refine ⟨y, hy, ?_⟩
    rw [List.any_eq_true]
    refine ⟨x, hx, ?_⟩
    rw [hp]
    simp [hc, List.length_pos, hmoves]
  · rintro h ⟨y, hy, hx⟩
    rw [List.any_eq_true] at hx
    obtain ⟨x, hxm, hbody⟩ := hx
    cases hcell : getCell board x y with
    | none =>
        rw [hcell] at hbody
        exact absurd hbody (by simp)
    | some p =>
        rw [hcell] at hbody
        simp only [Bool.and_eq_true, decide_eq_true_eq] at hbody
        have hempty := h x hxm y hy p hcell hbody.1
        rw [hempty] at hbody
        simp at hbody

/-- C2: isCheckmate holds exactly when the color is in check and every one
of its pieces on the scanned board has an empty legal-move set; a color
not in check is reported as playing (even with zero legal moves) and the
stalemate status value is never produced. -/
theorem isCheckmate_iff_no_moves (board : Board) (color : PieceColor) :
    (isCheckmate board color = true ↔
      (isInCheck board color = true ∧
        ∀ x ∈ coords8, ∀ y ∈ coords8, ∀ p : ChessPiece,
          getCell board x y = some p → p.color = color →
          getValidMoves board (x, y) = [])) ∧
    (isInCheck board color = false →
      computeStatus board color = GameStatus.playing) ∧
    computeStatus board color ≠ GameStatus.stalemate := by
  refine ⟨?_, ?_, ?_⟩
  · cases hin : isInCheck board color with
    | false =>
        unfold isCheckmate
        simp [hin]
    | true =>
        unfold isCheckmate
        rw [if_pos hin, Bool.not_eq_true', checkmate_scan_eq_false_iff]
        simp [hin]
  · intro h
    have hcm : isCheckmate board color = false := by
      unfold isCheckmate
      rw [if_neg (by simp [h])]
    unfold computeStatus
    rw [if_neg (by simp [hcm]), if_neg (by simp [h])]
  · unfold computeStatus
    split_ifs <;> simp

theorem isCheckmate_iff_no_moves_witness :
    isInCheck initialBoard PieceColor.white = false ∧
    computeStatus initialBoard PieceColor.white = GameStatus.playing :=
  ⟨by decide,
    (isCheckmate_iff_no_moves initialBoard PieceColor.white).2.1 (by decide)⟩

/-- C5 counterexample: on the board holding a lone white king at (0, 0),
getValidMoves returns [(0,1), (1,0), (1,1)]: the rank-1 destination (0,1)
precedes the rank-0 destination (1,0), so the sequence is not ordered
rank-major, file-minor. -/
theorem getValidMoves_not_rank_major :
    getValidMoves kingBoard (0, 0) = [(0, 1), (1, 0), (1, 1)] ∧
    ¬ List.Pairwise rankMajorLt (getValidMoves kingBoard (0, 0)) := by
  refine ⟨by decide, fun hp => ?_⟩
  rw [show getValidMoves kingBoard (0, 0) = [(0, 1), (1, 0), (1, 1)] from
    by decide] at hp
  have h := (List.pairwise_cons.mp hp).1 (1, 0) (by simp)
  rcases h with h | ⟨h, _⟩
  · exact absurd h (by decide)
  · exact absurd h (by decide)

/-- A flatMap over pointwise sublists is a sublist. -/
theorem flatMap_sublist_of_forall {α β : Type} (f g : α → List β) (l : List α)
    (h : ∀ a, List.Sublist (f a) (g a)) :
    List.Sublist (l.flatMap f) (l.flatMap g) := by
  induction l with
  | nil => simp
  | cons a t ih =>
      simp only [List.flatMap_cons]
      exact List.Sublist.append (h a) ih

theorem allSquaresScan_pairwise : List.Pairwise fileMajorLt allSquaresScan := by
  decide

/-- C5 amended: the sequence returned by getValidMoves follows the actual
scan order of the source, which runs x (file) in the outer loop and y
(rank) in the inner loop: destinations with a smaller file index come
first, and among equal file indices smaller rank indices come first. -/
theorem getValidMoves_file_major_order (board : Board) (pos : Int × Int) :
    List.Pairwise fileMajorLt (getValidMoves board pos) := by
  unfold getValidMoves
  cases hc : getCell board pos.1 pos.2 with
  | none => simp
  | some piece =>
      refine List.Pairwise.sublist ?_ allSquaresScan_pairwise
      unfold allSquaresScan
      apply flatMap_sublist_of_forall
      intro a
      exact List.Sublist.map _ (List.filter_sublist _)
